import Mathlib

/-!
Verification development for the `fmu-ensemble` realization module
(`src/fmu/ensemble/realization.py`).

The Python code is shallowly embedded: every definition below mirrors a
function or a code path of `realization.py` (the embedded line numbers are
cited in the doc comments).  External library boundaries (pandas tokenizing,
`json.load`, the OS file system) are modelled by explicit oracles carried in
a `FS` structure; Python strings are Lean `String`s, Python `dict`s are
association lists with unique keys, pandas `NaN` cells are an explicit
constructor, and Python `float` values are modelled as exact decimal numbers
(the claims under study never exercise rounding, `inf` or `nan` literals).

All string manipulation is re-implemented structurally over `List Char` so
that every definition reduces inside the kernel.
-/

/-- Decidable equality for `Except`, needed to evaluate the embedded
fallible operations on concrete inputs. -/
instance {ε α : Type} [DecidableEq ε] [DecidableEq α] : DecidableEq (Except ε α) := fun x y =>
  match x, y with
  | .ok a, .ok b =>
    if h : a = b then .isTrue (by rw [h])
    else .isFalse (by intro hc; cases hc; exact h rfl)
  | .error a, .error b =>
    if h : a = b then .isTrue (by rw [h])
    else .isFalse (by intro hc; cases hc; exact h rfl)
  | .ok _, .error _ => .isFalse (by intro hc; cases hc)
  | .error _, .ok _ => .isFalse (by intro hc; cases hc)

namespace FmuEnsemble

/-! ## Structural string helpers (kernel-reducible stand-ins for Python `str` methods) -/

/-- Split a character list on a separator character, keeping empty pieces,
like Python `str.split(sep)` for a one-character separator. -/
def splitOnC (sep : Char) : List Char → List (List Char)
  | [] => [[]]
  | c :: rest =>
    let r := splitOnC sep rest
    if c = sep then [] :: r
    else
      match r with
      | h :: t => (c :: h) :: t
      | [] => [[c]]

/-- Split a string on a separator character; mirrors Python `s.split(sep)`. -/
def pySplit (s : String) (sep : Char) : List String :=
  (splitOnC sep s.data).map String.mk

/-- Value of a non-empty digit run, most significant digit first. -/
def digitsToNat (l : List Char) : Nat :=
  l.foldl (fun n c => 10 * n + (c.toNat - 48)) 0

/-- Strip leading and trailing whitespace, like Python `str.strip()` as
performed by `int()`/`float()` on their argument. -/
def trimChars (l : List Char) : List Char :=
  ((l.dropWhile Char.isWhitespace).reverse.dropWhile Char.isWhitespace).reverse

/-- Python `int(s)` on a string: optional sign followed by a non-empty digit
run (surrounding whitespace allowed); `none` models `ValueError`. -/
def pyIntOfString (s : String) : Option Int :=
  let t := trimChars s.data
  let sg : Int := match t with
    | '-' :: _ => -1
    | _ => 1
  let ds := match t with
    | '-' :: r => r
    | '+' :: r => r
    | r => r
  if ds ≠ [] ∧ ds.all Char.isDigit then some (sg * digitsToNat ds) else none

/-- Exact decimal model of a Python `float`: the value `num / 10 ^ den10`.
The embedding only ever builds floats from finite decimal literals, for
which this representation is exact. -/
structure PFloat where
  num : Int
  den10 : Nat
deriving DecidableEq

/-- Python `float(s)` on a string, for finite decimal literals
(optional sign, digits, optional decimal point): `none` models
`ValueError`.  Exponent, `inf` and `nan` spellings are outside the
claims under study and are not modelled. -/
def pyFloatOfString (s : String) : Option PFloat :=
  let t := trimChars s.data
  let sg : Int := match t with
    | '-' :: _ => -1
    | _ => 1
  let body := match t with
    | '-' :: r => r
    | '+' :: r => r
    | r => r
  match splitOnC '.' body with
  | [a] =>
    if a ≠ [] ∧ a.all Char.isDigit then some ⟨sg * digitsToNat a, 0⟩ else none
  | [a, b] =>
    if (a ++ b) ≠ [] ∧ (a ++ b).all Char.isDigit then
      some ⟨sg * digitsToNat (a ++ b), b.length⟩
    else none
  | _ => none

/-- A Python scalar as held in the key-value data store: `int`, `float`
or `str`. -/
inductive PVal where
  | vInt (n : Int)
  | vFloat (f : PFloat)
  | vStr (s : String)
deriving DecidableEq

/-- Python `int(f)` for a (finite) float: truncation toward zero. -/
def pyTruncOfPFloat (f : PFloat) : Int :=
  Int.tdiv f.num ((10 : Int) ^ f.den10)

/-- Python `int(f) == f` for a (finite) float `f`: true exactly when the
value is an integer. -/
def pfloatIsIntegral (f : PFloat) : Bool :=
  Int.tmod f.num ((10 : Int) ^ f.den10) = 0

/-- Embedding of `parse_number` (realization.py lines 620-649): an `int`
input is returned unchanged; a `float` input equal to its truncation
collapses to `int`; any other input (a string) is tried as `int()`, then as
`float()`, and kept as the original string when both fail.  (The
`ValueError` that `int()` raises on `nan` is unreachable here because the
model has no non-finite floats.) -/
def parse_number (value : PVal) : PVal :=
  match value with
  | .vInt n => .vInt n
  | .vFloat f =>
    if pfloatIsIntegral f then .vInt (pyTruncOfPFloat f) else .vFloat f
  | .vStr s =>
    match pyIntOfString s with
    | some n => .vInt n
    | none =>
      match pyFloatOfString s with
      | some f => .vFloat f
      | none => .vStr s

/-! ## Status timeline (`from_status`, realization.py lines 262-336) -/

/-- A cell of the pandas table read from a `STATUS` file: either a
(non-empty, whitespace-free) string token, or the float `NaN` that pandas
substitutes for a missing trailing field. -/
inductive PCell where
  | s (v : String)
  | nan
deriving DecidableEq

/-- Python truthiness of a status cell: a string is truthy iff non-empty,
and the float `NaN` is truthy (`bool(float('nan')) == True`). -/
def pyTruthy : PCell → Bool
  | .s v => v ≠ ""
  | .nan => true

/-- Embedding of `map(int, field.split(':'))` followed by the
`hms[0] / hms[1] / hms[2]` accesses (realization.py lines 305-312):
every colon-separated token must parse as an `int` (`ValueError`
otherwise), and at least three tokens must be present (`IndexError`
otherwise). -/
def parseHMS (v : String) : Except String (Int × Int × Int) :=
  match (pySplit v ':').mapM pyIntOfString with
  | none => .error "ValueError: invalid literal for int()"
  | some ns =>
    match ns with
    | a :: b :: c :: _ => .ok (a, b, c)
    | _ => .error "IndexError: list index out of range"

/-- Access `.split(':')` on a status cell: works on a string, but raises
`AttributeError` on the float `NaN` that marks a missing field. -/
def cellHMS : PCell → Except String (Int × Int × Int)
  | .s v => parseHMS v
  | .nan => .error "AttributeError: float object has no attribute split"

/-- Embedding of `datetime.time(hour=h, minute=m, second=s)` followed by
`datetime.combine(date.today(), ...)`, collapsed to the second-of-day it
contributes to the subtraction; out-of-range components raise
`ValueError` exactly as `datetime.time` does. -/
def pyTimeSeconds (h m s : Int) : Except String Int :=
  if 0 ≤ h ∧ h < 24 ∧ 0 ≤ m ∧ m < 60 ∧ 0 ≤ s ∧ s < 60 then
    .ok (3600 * h + 60 * m + s)
  else .error "ValueError: invalid time"

/-- A Python `datetime.datetime` reduced to what the subtraction uses:
an integral day number and a second-of-day. -/
structure PyDatetime where
  day : Int
  sec : Int
deriving DecidableEq

/-- A Python `datetime.timedelta` in normalized form: `days` may be
negative, while `0 ≤ seconds < 86400` always holds. -/
structure PyTimedelta where
  days : Int
  seconds : Int
deriving DecidableEq

/-- Normalization a Python `timedelta` applies to a raw total number of
seconds: `days` is the floor quotient and `seconds` the non-negative
remainder. -/
def mkTimedelta (total : Int) : PyTimedelta :=
  ⟨Int.ediv total 86400, Int.emod total 86400⟩

/-- Subtraction of two Python datetimes, yielding a normalized
`timedelta`. -/
def pySubDatetime (a b : PyDatetime) : PyTimedelta :=
  mkTimedelta (86400 * (a.day - b.day) + (a.sec - b.sec))

/-- The DURATION value of one status row: a number of seconds, or the
`numpy.nan` appended for a job the code classifies as unfinished. -/
inductive Dur where
  | nan
  | secs (n : Int)
deriving DecidableEq

/-- Embedding of the per-row duration computation of `from_status`
(realization.py lines 301-315): the `not ENDTIME` guard appends
`numpy.nan`; otherwise STARTTIME is split and turned into a time, then
ENDTIME likewise, both are combined with `date.today()` (the same day for
both), and `(end - start).seconds` is appended. -/
def rowDuration (starttime endtime : PCell) : Except String Dur :=
  if pyTruthy endtime = false then .ok .nan
  else
    match cellHMS starttime with
    | .error e => .error e
    | .ok sh =>
      match pyTimeSeconds sh.1 sh.2.1 sh.2.2 with
      | .error e => .error e
      | .ok ssec =>
        match cellHMS endtime with
        | .error e => .error e
        | .ok eh =>
          match pyTimeSeconds eh.1 eh.2.1 eh.2.2 with
          | .error e => .error e
          | .ok esec => .ok (.secs (pySubDatetime ⟨0, esec⟩ ⟨0, ssec⟩).seconds)

/-! ## POSIX path helpers (`os.path`, `glob`) -/

/-- True when the string starts with a slash, i.e. is an absolute POSIX
path. -/
def startsWithSlash (s : String) : Bool :=
  match s.data with
  | '/' :: _ => true
  | _ => false

/-- True when the string ends with a slash. -/
def endsWithSlash (s : String) : Bool :=
  s.data.getLastD 'x' = '/'

/-- Embedding of `os.path.join(a, b)` for POSIX paths and two
arguments. -/
def pyJoin (a b : String) : String :=
  if startsWithSlash b then b
  else if a = "" then b
  else if endsWithSlash a then a ++ b
  else a ++ "/" ++ b

/-- Embedding of `os.path.basename(p)` /  `os.path.split(p)[-1]` for POSIX
paths: everything after the last slash. -/
def pyBasename (p : String) : String :=
  (pySplit p '/').getLastD p

/-- Embedding of `''.join(x.split('.')[:-1])` as `get_df` computes its
suffix-stripped tiers (realization.py lines 389 and 394): note the pieces
are rejoined with the empty string, and a dot-free name collapses to
`''`. -/
def dropLastExt (p : String) : String :=
  ((pySplit p '.').dropLast).foldl (· ++ ·) ""

/-- Embedding of `p.split('.')[-1]`, the FILETYPE computation. -/
def lastExt (p : String) : String :=
  (pySplit p '.').getLastD p

/-- Components of a POSIX path with empty and `'.'` components removed,
as `os.path.normpath` computes them.  Paths containing `..` are outside
the inputs exercised here and are not specially modelled. -/
def pathComps (p : String) : List (List Char) :=
  (splitOnC '/' p.data).filter (fun c => c ≠ [] ∧ c ≠ ['.'])

/-- Rejoin path components with slashes. -/
def interSlash : List (List Char) → List Char
  | [] => []
  | [x] => x
  | x :: r => x ++ '/' :: interSlash r

/-- Embedding of `os.path.normpath` for POSIX paths without `..`
components. -/
def normPath (p : String) : String :=
  if startsWithSlash p then String.mk ('/' :: interSlash (pathComps p))
  else String.mk (interSlash (pathComps p))

/-- Embedding of `os.path.abspath(p)` given the current working
directory: relative paths are joined onto `cwd`, and the result is
normalized. -/
def pyAbspath (cwd p : String) : String :=
  if startsWithSlash p then normPath p else normPath (cwd ++ "/" ++ p)

/-- Length of the common prefix of two component lists. -/
def commonLen : List (List Char) → List (List Char) → Nat
  | a :: ar, b :: br => if a = b then commonLen ar br + 1 else 0
  | _, _ => 0

/-- Embedding of `os.path.relpath(p, start)`: both arguments are made
absolute, the common component prefix is dropped, and the remainder of
`start` is climbed with `..` entries. -/
def pyRelpath (cwd p start : String) : String :=
  let pc := pathComps (pyAbspath cwd p)
  let sc := pathComps (pyAbspath cwd start)
  let k := commonLen pc sc
  let comps := List.replicate (sc.length - k) ['.', '.'] ++ pc.drop k
  if comps.isEmpty then "." else String.mk (interSlash comps)

/-- True when a glob pattern contains one of the magic characters
`*`, `?`, `[`; `glob.glob` returns non-magic patterns verbatim. -/
def hasMagic (p : String) : Bool :=
  p.data.any (fun c => c = '*' ∨ c = '?' ∨ c = '[')

/-! ## The file system oracle and the realization state -/

/-- The file-system and external-parser oracle seen by one realization.
`paths` holds the normalized absolute paths that exist; the remaining
fields are the external parsing collaborators (pandas, `json.load`),
keyed by normalized absolute path:
* `txt` is the key-value mapping `pd.read_table(...)[1].to_dict()`
  produces for a two-column whitespace-separated file (an empty list also
  covers the caught `EmptyDataError` case, which yields `{}`),
* `csv` is the row list `pd.read_csv` produces, `none` meaning the
  `EmptyDataError` path (the code stores `None`),
* `statusLines` is the whitespace-tokenized line list of a `STATUS`
  file, first line included (the code skips it with `skiprows=1`),
* `jobsJson` is the `jobList` of a `jobs.json`, `none` meaning the
  `ValueError` that a malformed file raises in `json.load`,
* `globOracle` lists the matches of a magic glob pattern. -/
structure FS where
  cwd : String
  paths : List String
  txt : String → List (String × String)
  csv : String → Option (List (List String))
  statusLines : String → List (List String)
  jobsJson : String → Option (List (List (String × String)))
  globOracle : String → List String

/-- Embedding of `os.path.exists` / `os.path.lexists`: the path is made
absolute against the process working directory and looked up. -/
def fsExists (fs : FS) (p : String) : Bool :=
  fs.paths.contains (pyAbspath fs.cwd p)

/-- Embedding of `glob.glob(pattern)`: a pattern without magic characters
is returned verbatim when it names an existing file (CPython yields the
unnormalized pattern string itself); magic patterns defer to the
oracle. -/
def pyGlob (fs : FS) (pat : String) : List String :=
  if hasMagic pat then fs.globOracle pat
  else if fsExists fs pat then [pat] else []

/-- One row of the `files` dataframe (realization.py lines 71-72): the
four fixed columns plus the caller-supplied metadata columns of
`find_files`. -/
structure FileRow where
  localpath : String
  filetype : String
  fullpath : String
  basename : String
  meta : List (String × String)
deriving DecidableEq

/-- One row of the status timeline after the optional `jobs.json` outer
merge: a sidecar-only row has `NaN` status fields and a `NaN` duration,
exactly as the pandas outer join fills them. -/
structure StatusOutRow where
  jobindex : Nat
  fm : PCell
  starttime : PCell
  endtime : PCell
  duration : Dur
  sidecar : List (String × String)
deriving DecidableEq

/-- A value of the internal data store `self.data`: a key-value dict, a
CSV dataframe, the status timeline dataframe, or the `None` stored for an
empty CSV. -/
inductive DataVal where
  | dict (kv : List (String × PVal))
  | frame (rows : List (List String))
  | statusFrame (rows : List StatusOutRow)
  | pynone
deriving DecidableEq

/-- The mutable state of a `ScratchRealization`: origin path, optional
realization index, the `files` dataframe and the `data` dictionary (an
association list with unique keys, in insertion order, like a Python
dict). -/
structure Realization where
  origpath : String
  index : Option Nat
  files : List FileRow
  data : List (String × DataVal)
deriving DecidableEq

/-- Lookup in a Python dict modelled as an association list. -/
def lookupKV {α : Type} (d : List (String × α)) (k : String) : Option α :=
  (d.find? (fun kv => kv.1 = k)).map (·.2)

/-- Assignment `d[k] = v` on a Python dict modelled as an association
list: an existing key is overwritten in place, a new key is appended. -/
def dictInsert {α : Type} (d : List (String × α)) (k : String) (v : α) :
    List (String × α) :=
  if (d.map (·.1)).contains k then
    d.map (fun kv => if kv.1 = k then (k, v) else kv)
  else d ++ [(k, v)]

/-! ## The data-store access operations -/

/-- Embedding of `ScratchRealization.get_df` (realization.py lines
362-400), generic in the stored value type.  An exact key hit returns at
once; otherwise the basename tier, then the suffix-stripped tier, then
the basename-and-suffix-stripped tier is counted over all cached keys,
and a tier whose count is exactly one resolves through the
`{shortcut: fullkey}` dict built from all entries (under count one, the
first — unique — matching entry).  When no tier counts exactly one, a
`ValueError` carrying the requested key is raised. -/
def get_df {α : Type} (data : List (String × α)) (localpath : String) :
    Except String α :=
  match lookupKV data localpath with
  | some v => .ok v
  | none =>
    if (data.map (fun kv => pyBasename kv.1)).count localpath = 1 then
      match data.find? (fun kv => pyBasename kv.1 = localpath) with
      | some kv => .ok kv.2
      | none => .error localpath
    else if (data.map (fun kv => dropLastExt kv.1)).count localpath = 1 then
      match data.find? (fun kv => dropLastExt kv.1 = localpath) with
      | some kv => .ok kv.2
      | none => .error localpath
    else if (data.map (fun kv => dropLastExt (pyBasename kv.1))).count localpath = 1 then
      match data.find? (fun kv => dropLastExt (pyBasename kv.1) = localpath) with
      | some kv => .ok kv.2
      | none => .error localpath
    else .error localpath

/-- Embedding of `ScratchRealization.__delitem__` (realization.py lines
345-355), generic in the stored value type: the entry is removed only on
an exact key match, and a missing key is silently ignored. -/
def delitem {α : Type} (data : List (String × α)) (localpath : String) :
    List (String × α) :=
  if (data.map (·.1)).contains localpath then
    data.filter (fun kv => kv.1 ≠ localpath)
  else data

/-! ## `from_txt` and `from_csv` -/

/-- The key-value mapping parsed and coerced from a text file, i.e. the
`pd.read_table(...).to_dict()` result with `parse_number` applied to
every value when `convert_numeric` is set (realization.py lines
199-207). -/
def txtKeyvalues (fs : FS) (fullpath : String) (convert_numeric : Bool) :
    List (String × PVal) :=
  if convert_numeric then
    (fs.txt (pyAbspath fs.cwd fullpath)).map (fun kv => (kv.1, parse_number (.vStr kv.2)))
  else
    (fs.txt (pyAbspath fs.cwd fullpath)).map (fun kv => (kv.1, PVal.vStr kv.2))

/-- The `files` row that `from_txt` registers for a fresh localpath
(realization.py lines 194-198). -/
def txtFileRow (localpath fullpath : String) : FileRow :=
  ⟨localpath, lastExt localpath, fullpath, pyBasename localpath, []⟩

/-- Embedding of `ScratchRealization.from_txt` (realization.py lines
151-209).  The returned triple carries the value Python returns, the
realization after its in-place mutations, and an instrumentation flag
telling whether the file content was read (the cached branch returns
without touching the file's content).  The possible errors are the
`IOError` for a missing file and the `KeyError` of `self.data[localpath]`
when the cache test hits on `files` but the data store has no entry. -/
def from_txt (fs : FS) (real : Realization) (localpath : String)
    (convert_numeric : Bool) (force_reread : Bool) :
    Except String (DataVal × Realization × Bool) :=
  if ¬ fsExists fs (pyJoin real.origpath localpath) then
    .error ("IOError: File not found: " ++ pyJoin real.origpath localpath)
  else if (real.files.map (·.fullpath)).contains (pyJoin real.origpath localpath)
      ∧ ¬ force_reread then
    match lookupKV real.data localpath with
    | some v => .ok (v, real, false)
    | none => .error ("KeyError: " ++ localpath)
  else
    .ok (DataVal.dict (txtKeyvalues fs (pyJoin real.origpath localpath) convert_numeric),
         { real with
             files :=
               if ¬ (real.files.map (·.fullpath)).contains (pyJoin real.origpath localpath) then
                 real.files ++ [txtFileRow localpath (pyJoin real.origpath localpath)]
               else real.files,
             data := dictInsert real.data localpath
               (DataVal.dict (txtKeyvalues fs (pyJoin real.origpath localpath)
                  convert_numeric)) },
         true)

/-- Embedding of `ScratchRealization.from_csv` (realization.py lines
211-260).  The cache test here is on the data store; the `files`
registration is guarded by LOCALPATH membership.  The
`convert_numeric` flag only selects the pandas dtype inference and does
not change which rows are stored, so the row oracle is used for either
value of the flag. -/
def from_csv (fs : FS) (real : Realization) (localpath : String)
    (force_reread : Bool) :
    Except String (DataVal × Realization) :=
  let fullpath := pyJoin real.origpath localpath
  if ¬ fsExists fs fullpath then
    .error ("IOError: File not found: " ++ fullpath)
  else if (lookupKV real.data localpath).isSome ∧ ¬ force_reread then
    match lookupKV real.data localpath with
    | some v => .ok (v, real)
    | none => .error ("KeyError: " ++ localpath)
  else
    let files' :=
      if ¬ (real.files.map (·.localpath)).contains localpath then
        real.files ++
          [⟨localpath, lastExt localpath, fullpath, pyBasename localpath, []⟩]
      else real.files
    let dframe :=
      match fs.csv (pyAbspath fs.cwd fullpath) with
      | some rows => DataVal.frame rows
      | none => DataVal.pynone
    .ok (dframe, { real with files := files',
                             data := dictInsert real.data localpath dframe })

/-! ## `find_files` -/

/-- Embedding of the per-match body of `ScratchRealization.find_files`
(realization.py lines 422-433): any existing row with the same FULLPATH
is dropped, then the freshly built row (with metadata merged in) is
appended. -/
def findFilesStep (cwd origpath : String) (md : List (String × String))
    (files : List FileRow) (m : String) : List FileRow :=
  (if (files.map (·.fullpath)).contains m then
    files.filter (fun fr => fr.fullpath ≠ m)
  else files) ++
  [⟨pyRelpath cwd m origpath, lastExt m, m, pyBasename m, md⟩]

/-- Embedding of `ScratchRealization.find_files` (realization.py lines
402-433) for a list of patterns: each pattern is joined onto the
realization path, globbed, and every match is registered. -/
def find_files (fs : FS) (real : Realization) (paths : List String)
    (md : List (String × String)) : Realization :=
  { real with
    files := paths.foldl
      (fun files searchpath =>
        (pyGlob fs (pyJoin real.origpath searchpath)).foldl
          (findFilesStep fs.cwd real.origpath md) files)
      real.files }

/-! ## `from_status` and construction -/

/-- Cell `i` of a tokenized status line: pandas pads a short line with
`NaN` for the missing trailing named columns. -/
def cellAt (toks : List String) (i : Nat) : PCell :=
  match toks.get? i with
  | some t => .s t
  | none => .nan

/-- The five named cells of one status line
(`FORWARD_MODEL, colon, STARTTIME, dots, ENDTIME`). -/
structure StatusLineRow where
  fm : PCell
  colon : PCell
  starttime : PCell
  dots : PCell
  endtime : PCell
deriving DecidableEq

/-- Tokenized status lines to named rows: lines with more tokens than the
five named columns are skipped (`error_bad_lines=False`), shorter lines
are `NaN`-padded. -/
def statusRowsOfLines (lines : List (List String)) : List StatusLineRow :=
  (lines.filter (fun t => t.length ≤ 5)).map
    (fun t => ⟨cellAt t 0, cellAt t 1, cellAt t 2, cellAt t 3, cellAt t 4⟩)

/-- The junk filter of realization.py lines 290-291: rows whose
FORWARD_MODEL is `LSF` and whose second column is `JOBID:` are removed
before indexing. -/
def statusJunkFree (rows : List StatusLineRow) : List StatusLineRow :=
  rows.filter (fun r => ¬ (r.fm = .s "LSF" ∧ r.colon = .s "JOBID:"))

/-- Embedding of the `jobs.json` outer merge (realization.py lines
318-329): the status rows carry JOBINDEX `0..k-1` and the sidecar list is
indexed `0..n-1` by position, so the outer join on JOBINDEX is the
position-wise pairing over `0..max k n - 1`; sidecar-only rows get
`NaN`-filled status columns.  Both key columns are strictly increasing,
so the final `sort_values('JOBINDEX')` leaves the order unchanged. -/
def mergeJobs (st : List StatusOutRow) (jobs : List (List (String × String))) :
    List StatusOutRow :=
  (List.range (max st.length jobs.length)).map fun i =>
    match st.get? i with
    | some r => { r with sidecar := (jobs.get? i).getD [] }
    | none => ⟨i, .nan, .nan, .nan, .nan, (jobs.get? i).getD []⟩

/-- Embedding of the table-building part of
`ScratchRealization.from_status` (realization.py lines 282-334): the
STATUS file is parsed (first line skipped), junk rows are dropped,
JOBINDEX is assigned by position, the durations are computed row by row
(the first raising row aborts, as a Python exception would), and the
`jobs.json` sidecar is outer-merged when present and parseable. -/
def statusOutRowsOf (fs : FS) (origpath : String) :
    Except String (List StatusOutRow) :=
  let lines := (fs.statusLines (pyAbspath fs.cwd (pyJoin origpath "STATUS"))).drop 1
  let rows := statusJunkFree (statusRowsOfLines lines)
  match rows.mapM (fun r => rowDuration r.starttime r.endtime) with
  | .error e => .error e
  | .ok durs =>
    let statusRows := (rows.zip durs).enum.map
      (fun p => (⟨p.1, p.2.1.fm, p.2.1.starttime, p.2.1.endtime, p.2.2, []⟩ : StatusOutRow))
    if fsExists fs (pyJoin origpath "jobs.json") then
      match fs.jobsJson (pyAbspath fs.cwd (pyJoin origpath "jobs.json")) with
      | some jobs => .ok (mergeJobs statusRows jobs)
      | none => .ok statusRows
    else .ok statusRows

/-- Embedding of the state effect of `from_status`: on a missing STATUS
file the method returns an empty dataframe without storing anything;
otherwise the computed (and possibly sidecar-merged) timeline is stored
under the data-store key `STATUS`, and any exception raised during the
duration loop propagates. -/
def from_status (fs : FS) (real : Realization) : Except String Realization :=
  if ¬ fsExists fs (pyJoin real.origpath "STATUS") then .ok real
  else
    match statusOutRowsOf fs real.origpath with
    | .error e => .error e
    | .ok merged =>
      .ok { real with data := dictInsert real.data "STATUS" (.statusFrame merged) }

/-- Embedding of the default `realidxregexp` match
`re.match(r'.*realization-(\d+)', abspath)`: the greedy `.*` selects the
last occurrence of `realization-` that is followed by at least one digit,
and the group takes the maximal digit run there. -/
def realIdxAux : List Char → Option Nat
  | [] => none
  | c :: rest =>
    match realIdxAux rest with
    | some n => some n
    | none =>
      if "realization-".data.isPrefixOf (c :: rest) then
        let ds := ((c :: rest).drop 12).takeWhile Char.isDigit
        if ds = [] then none else some (digitsToNat ds)
      else none

/-- Realization index extracted from a path, `none` when the pattern does
not match (the code then leaves `self.index` unset). -/
def realIdx (s : String) : Option Nat :=
  realIdxAux s.data

/-- The initial `files` rows registered by `__init__` (realization.py
lines 88-112): the mandatory `STATUS` row, then a `jobs.json` row and an
`OK` row when those files exist. -/
def initFiles (fs : FS) (abspath : String) : List FileRow :=
  [(⟨"STATUS", "STATUS", pyJoin abspath "STATUS", "STATUS", []⟩ : FileRow)] ++
  (if fsExists fs (pyJoin abspath "jobs.json") then
    [(⟨"jobs.json", "json", pyJoin abspath "jobs.json", "jobs.json", []⟩ : FileRow)]
  else []) ++
  (if fsExists fs (pyJoin abspath "OK") then
    [(⟨"OK", "OK", pyJoin abspath "OK", "OK", []⟩ : FileRow)]
  else [])

/-- Embedding of `ScratchRealization.__init__` (realization.py lines
67-115): the index is matched from the absolute path; a missing `STATUS`
raises `IOError`; `STATUS`, then optionally `jobs.json` and `OK`, are
registered in `files` with fullpaths under the absolute path; finally
`from_txt('parameters.txt')` and `from_status()` run unconditionally,
propagating any exception they raise. -/
def initRealization (fs : FS) (path : String) : Except String Realization :=
  if fsExists fs (pyJoin (pyAbspath fs.cwd path) "STATUS") then
    match from_txt fs
        ⟨path, realIdx (pyAbspath fs.cwd path), initFiles fs (pyAbspath fs.cwd path), []⟩
        "parameters.txt" true false with
    | .error e => .error e
    | .ok r => from_status fs r.2.1
  else .error "IOError: STATUS file missing"

/-- One cache-building call on a live realization, for stating
invariants over arbitrary call sequences. -/
inductive Op where
  | opFindFiles (paths : List String) (md : List (String × String))
  | opFromTxt (localpath : String) (convert_numeric force_reread : Bool)

/-- Apply one operation to the realization state.  A raising `from_txt`
leaves the state unchanged, matching the code: both of its raise sites
fire before any mutation. -/
def applyOp (fs : FS) (real : Realization) : Op → Realization
  | .opFindFiles paths md => find_files fs real paths md
  | .opFromTxt lp cn fr =>
    match from_txt fs real lp cn fr with
    | .ok r => r.2.1
    | .error _ => real

/-- Apply a sequence of operations left to right. -/
def applyOps (fs : FS) (ops : List Op) (real : Realization) : Realization :=
  ops.foldl (applyOp fs) real

/-! ## Supporting lemmas -/

theorem strAppendCancel (a b c : String) (h : a ++ b = a ++ c) : b = c := by
  have hd : (a ++ b).data = (a ++ c).data := by rw [h]
  simp [String.data_append] at hd
  exact String.ext hd

theorem pyJoin_ne (a b c : String) (hb : startsWithSlash b = false)
    (hc : startsWithSlash c = false) (hbc : b ≠ c) : pyJoin a b ≠ pyJoin a c := by
  unfold pyJoin
  rw [hb, hc]
  simp only [Bool.false_eq_true, if_false]
  by_cases ha : a = ""
  · simp [ha, hbc]
  · simp only [ha, if_false]
    by_cases hsl : endsWithSlash a
    · simp only [hsl, if_true]
      intro h
      exact hbc (strAppendCancel a b c h)
    · simp only [hsl, Bool.false_eq_true, if_false]
      intro h
      exact hbc (strAppendCancel (a ++ "/") b c h)

theorem contains_false_not_mem {α : Type} [DecidableEq α] (l : List α) (a : α)
    (h : l.contains a = false) : a ∉ l := by
  intro hm
  have h2 : List.elem a l = false := h
  have h3 := List.elem_iff.mpr hm
  rw [h2] at h3
  cases h3

theorem lookup_none_of_not_contains {α : Type} (d : List (String × α)) (k : String)
    (h : (d.map (·.1)).contains k = false) : lookupKV d k = none := by
  have hk : k ∉ d.map (·.1) := contains_false_not_mem _ k h
  have hf : d.find? (fun kv => kv.1 = k) = none := by
    apply List.find?_eq_none.mpr
    intro x hx
    simp only [decide_eq_true_eq]
    intro he
    exact hk (he ▸ List.mem_map_of_mem (·.1) hx)
  simp [lookupKV, hf]

theorem lookup_mapUpdate {α : Type} (d : List (String × α)) (k : String) (v : α)
    (hk : k ∈ d.map (·.1)) :
    lookupKV (d.map (fun kv => if kv.1 = k then (k, v) else kv)) k = some v := by
  induction d with
  | nil => cases hk
  | cons hd tl ih =>
    rw [List.map_cons]
    by_cases hhd : hd.1 = k
    · rw [if_pos hhd]
      unfold lookupKV
      rw [List.find?_cons_of_pos _ (by simp)]
      rfl
    · rw [if_neg hhd]
      unfold lookupKV
      rw [List.find?_cons_of_neg _ (by simp [hhd])]
      have hk2 : k ∈ hd.1 :: tl.map (·.1) := by
        rw [List.map_cons] at hk
        exact hk
      have hk' : k ∈ tl.map (·.1) := by
        rcases List.mem_cons.mp hk2 with he | hm
        · exact absurd he.symm hhd
        · exact hm
      exact ih hk'

theorem lookup_append_single {α : Type} (d : List (String × α)) (k : String) (v : α)
    (hk : k ∉ d.map (·.1)) : lookupKV (d ++ [(k, v)]) k = some v := by
  induction d with
  | nil =>
    unfold lookupKV
    rw [List.nil_append, List.find?_cons_of_pos _ (by simp)]
    rfl
  | cons hd tl ih =>
    have hhd : ¬ hd.1 = k := by
      intro he
      exact hk (by simp [he])
    rw [List.cons_append]
    unfold lookupKV
    rw [List.find?_cons_of_neg _ (by simp [hhd])]
    exact ih (fun hm => hk (by simp [hm]))

theorem lookup_dictInsert_self {α : Type} (d : List (String × α)) (k : String) (v : α) :
    lookupKV (dictInsert d k v) k = some v := by
  unfold dictInsert
  by_cases hc : (d.map (·.1)).contains k = true
  · rw [if_pos hc]
    exact lookup_mapUpdate d k v (List.elem_iff.mp hc)
  · rw [if_neg hc]
    refine lookup_append_single d k v ?_
    intro hm
    exact hc (List.elem_iff.mpr hm)

theorem count_one_find {β : Type} (f : β → String) (b : String) :
    ∀ (l : List β) (x : β), (l.map f).count b = 1 → x ∈ l → f x = b →
      l.find? (fun y => f y = b) = some x := by
  intro l
  induction l with
  | nil => intro x _ hx; cases hx
  | cons hd tl ih =>
    intro x h1 hx hfx
    by_cases hhd : f hd = b
    · have hcount : (tl.map f).count b = 0 := by
        simp only [List.map_cons, List.count_cons, hhd, beq_self_eq_true, if_true] at h1
        omega
      have hbtl : b ∉ tl.map f := by
        intro hmem
        have := List.count_pos_iff.mpr hmem
        omega
      have hxhd : x = hd := by
        rcases List.mem_cons.mp hx with he | hxtl
        · exact he
        · exact absurd (hfx ▸ List.mem_map_of_mem f hxtl) hbtl
      subst hxhd
      rw [List.find?_cons_of_pos _ (by simp [hhd])]
    · have h1' : (tl.map f).count b = 1 := by
        simp only [List.map_cons, List.count_cons] at h1
        simpa [hhd] using h1
      have hxtl : x ∈ tl := by
        rcases List.mem_cons.mp hx with he | hm
        · exact absurd (he ▸ hfx) hhd
        · exact hm
      rw [List.find?_cons_of_neg _ (by simp [hhd])]
      exact ih x h1' hxtl hfx

theorem nodupConcat {α : Type} (l : List α) (a : α) (h : l.Nodup) (hm : a ∉ l) :
    (l ++ [a]).Nodup := by
  rw [List.nodup_append]
  refine ⟨h, List.nodup_singleton a, ?_⟩
  intro x hx hxa
  rw [List.mem_singleton] at hxa
  subst hxa
  exact hm hx

/-! ## Claim C2: numeric-inference coercion of `parse_number` -/

/-- C2, counterexample: the claim says `parse_number("3.0")` is the integer
`3`, but the code's string branch returns `float("3.0")` unchanged — the
float-to-int collapse lives only in the `isinstance(value, float)` branch,
which a string input never reaches.  `parse_number("3.0")` is the float
`3.0`, which is not the integer `3`. -/
theorem parse_number_string_not_collapsed :
    parse_number (.vStr "3.0") = .vFloat ⟨30, 1⟩ ∧
    PVal.vFloat ⟨30, 1⟩ ≠ PVal.vInt 3 := by
  exact ⟨rfl, by decide⟩

/-- C2 (amended): `parse_number` on a string tries an integer parse, then a
floating-point parse, then keeps the string; a float input exactly equal to
its truncated integer form is collapsed to an integer, but a string that
parses as an integer-valued float is returned as that float without
collapsing, so `parse_number("3.0") = 3.0` (a float),
`parse_number("3.5") = 3.5` (a float), and `parse_number("abc") = "abc"`
(a string). -/
theorem parse_number_coercion (s : String) (n : Int) (f : PFloat) :
    (pyIntOfString s = some n → parse_number (.vStr s) = .vInt n) ∧
    (pyIntOfString s = none → pyFloatOfString s = some f →
      parse_number (.vStr s) = .vFloat f) ∧
    (pyIntOfString s = none → pyFloatOfString s = none →
      parse_number (.vStr s) = .vStr s) ∧
    (pfloatIsIntegral f = true → parse_number (.vFloat f) = .vInt (pyTruncOfPFloat f)) ∧
    (pfloatIsIntegral f = false → parse_number (.vFloat f) = .vFloat f) ∧
    parse_number (.vStr "3.0") = .vFloat ⟨30, 1⟩ ∧
    parse_number (.vStr "3.5") = .vFloat ⟨35, 1⟩ ∧
    parse_number (.vStr "abc") = .vStr "abc" := by
  refine ⟨?_, ?_, ?_, ?_, ?_, rfl, rfl, rfl⟩
  · intro h
    simp [parse_number, h]
  · intro h1 h2
    simp [parse_number, h1, h2]
  · intro h1 h2
    simp [parse_number, h1, h2]
  · intro h
    simp [parse_number, h]
  · intro h
    simp [parse_number, h]

/-- C2, witness: the amended coercion rule evaluated at the concrete
inputs `"7"` (integer parse succeeds) and the float `3.5` (not
integral). -/
theorem parse_number_coercion_witness :
    parse_number (.vStr "7") = .vInt 7 ∧
    parse_number (.vFloat ⟨35, 1⟩) = .vFloat ⟨35, 1⟩ :=
  ⟨(parse_number_coercion "7" 7 ⟨35, 1⟩).1 rfl,
   (parse_number_coercion "7" 7 ⟨35, 1⟩).2.2.2.2.1 rfl⟩

/-! ## Claim C1: control flow of the shorthand tiers of `get_df` -/

/-- The data store exhibiting the tier fallthrough: the basename tier has
two candidates for the key `x`, yet the suffix-stripped tier still
resolves. -/
def tierStore : List (String × Nat) := [("a/x", 1), ("b/x", 2), ("x.t", 3)]

/-- C1, counterexample: with cached keys `a/x`, `b/x`, `x.t`, the basename
tier yields two matches for the shorthand `x`, so by the claim the lookup
must fail as ambiguous with no later tier attempted — but `get_df`
falls through and returns the value of `x.t` via the suffix-stripped
tier. -/
theorem get_df_tier_fallthrough :
    (tierStore.map (fun kv => pyBasename kv.1)).count "x" = 2 ∧
    get_df tierStore "x" = .ok 3 := by
  exact ⟨rfl, rfl⟩

/-- C1 (amended): each tier of `get_df` is evaluated against the full
cached-key set; after an exact-key hit, the first tier yielding exactly
one match returns that entry's value, while a tier yielding zero or more
than one matches is skipped and the later tiers are still attempted; only
when no tier yields exactly one match does the lookup fail with a
`ValueError` carrying the requested key. -/
theorem get_df_first_unique_tier {α : Type} (data : List (String × α)) (lp : String) :
    (∀ v, lookupKV data lp = some v → get_df data lp = .ok v) ∧
    (lookupKV data lp = none →
      (data.map (fun kv => pyBasename kv.1)).count lp = 1 →
      ∀ k v, (k, v) ∈ data → pyBasename k = lp → get_df data lp = .ok v) ∧
    (lookupKV data lp = none →
      (data.map (fun kv => pyBasename kv.1)).count lp ≠ 1 →
      (data.map (fun kv => dropLastExt kv.1)).count lp = 1 →
      ∀ k v, (k, v) ∈ data → dropLastExt k = lp → get_df data lp = .ok v) ∧
    (lookupKV data lp = none →
      (data.map (fun kv => pyBasename kv.1)).count lp ≠ 1 →
      (data.map (fun kv => dropLastExt kv.1)).count lp ≠ 1 →
      (data.map (fun kv => dropLastExt (pyBasename kv.1))).count lp = 1 →
      ∀ k v, (k, v) ∈ data → dropLastExt (pyBasename k) = lp →
        get_df data lp = .ok v) ∧
    (lookupKV data lp = none →
      (data.map (fun kv => pyBasename kv.1)).count lp ≠ 1 →
      (data.map (fun kv => dropLastExt kv.1)).count lp ≠ 1 →
      (data.map (fun kv => dropLastExt (pyBasename kv.1))).count lp ≠ 1 →
      get_df data lp = .error lp) := by
  refine ⟨?_, ?_, ?_, ?_, ?_⟩
  · intro v h
    simp [get_df, h]
  · intro h0 h1 k v hm hb
    have hf := count_one_find (fun kv => pyBasename kv.1) lp data (k, v) h1 hm hb
    simp only [get_df, h0]
    rw [if_pos h1, hf]
  · intro h0 h1 h2 k v hm hb
    have hf := count_one_find (fun kv => dropLastExt kv.1) lp data (k, v) h2 hm hb
    simp only [get_df, h0]
    rw [if_neg h1, if_pos h2, hf]
  · intro h0 h1 h2 h3 k v hm hb
    have hf := count_one_find (fun kv => dropLastExt (pyBasename kv.1)) lp data (k, v) h3 hm hb
    simp only [get_df, h0]
    rw [if_neg h1, if_neg h2, if_pos h3, hf]
  · intro h0 h1 h2 h3
    simp only [get_df, h0]
    rw [if_neg h1, if_neg h2, if_neg h3]

/-- C1, witness: the amended tier rule evaluated concretely — a lookup
where no tier yields a unique match errors, and a basename-tier-unique
lookup resolves. -/
theorem get_df_first_unique_tier_witness :
    get_df [("p/q.csv", (5 : Nat))] "zzz" = .error "zzz" ∧
    get_df [("a/b.csv", (7 : Nat))] "b.csv" = .ok 7 :=
  ⟨(get_df_first_unique_tier [("p/q.csv", (5 : Nat))] "zzz").2.2.2.2
      rfl (by decide) (by decide) (by decide),
   (get_df_first_unique_tier [("a/b.csv", (7 : Nat))] "b.csv").2.1
      rfl rfl "a/b.csv" 7 (by decide) rfl⟩

/-! ## Claim C5: duration arithmetic for completed rows -/

/-- C5: for a completed job row (both time fields parse as `h:m:s` with
in-range components), the computed DURATION is the end-minus-start
time-of-day difference in whole seconds taken modulo 86400, so an end
time earlier than the start time is treated as having crossed exactly one
midnight boundary. -/
theorem rowDuration_mod_86400 (st et : String) (sh sm ss eh em es : Int)
    (hs : parseHMS st = .ok (sh, sm, ss)) (he : parseHMS et = .ok (eh, em, es))
    (hsv : 0 ≤ sh ∧ sh < 24 ∧ 0 ≤ sm ∧ sm < 60 ∧ 0 ≤ ss ∧ ss < 60)
    (hev : 0 ≤ eh ∧ eh < 24 ∧ 0 ≤ em ∧ em < 60 ∧ 0 ≤ es ∧ es < 60)
    (hne : et ≠ "") :
    rowDuration (.s st) (.s et) =
      .ok (.secs (Int.emod
        ((3600 * eh + 60 * em + es) - (3600 * sh + 60 * sm + ss)) 86400)) := by
  have ht : pyTruthy (.s et) = true := by simp [pyTruthy, hne]
  have hps : pyTimeSeconds sh sm ss = .ok (3600 * sh + 60 * sm + ss) := by
    unfold pyTimeSeconds
    rw [if_pos hsv]
  have hpe : pyTimeSeconds eh em es = .ok (3600 * eh + 60 * em + es) := by
    unfold pyTimeSeconds
    rw [if_pos hev]
  simp only [rowDuration, ht, Bool.true_eq_false, if_false, cellHMS, hs, he,
    hps, hpe, pySubDatetime, mkTimedelta]
  have harith : 86400 * ((0 : Int) - 0) + ((3600 * eh + 60 * em + es) -
      (3600 * sh + 60 * sm + ss)) =
      (3600 * eh + 60 * em + es) - (3600 * sh + 60 * sm + ss) := by ring
  rw [harith]

/-- C5, witness: a run crossing midnight — start `23:50:00`, end
`00:10:00` — gets the wrapped duration `1200` seconds. -/
theorem rowDuration_mod_86400_witness :
    rowDuration (.s "23:50:00") (.s "00:10:00") = .ok (.secs 1200) :=
  rowDuration_mod_86400 "23:50:00" "00:10:00" 23 50 0 0 10 0
    rfl rfl (by decide) (by decide) (by decide)

/-! ## Claim C3: shorthand resolution on the documented example -/

/-- The single-key store of the claim. -/
def volumeStore : List (String × Nat) :=
  [("share/results/volumes/simulator_volume_fipnum.csv", 42)]

/-- The same store after adding a second key with the same basename. -/
def volumeStore2 : List (String × Nat) :=
  volumeStore ++ [("other/simulator_volume_fipnum.csv", 43)]

/-- C3: with the single cached key
`share/results/volumes/simulator_volume_fipnum.csv`, the three
documented shorthands all return the same value as the fully qualified
key; after a second cached key with the same basename is added,
`get("simulator_volume_fipnum")` fails as ambiguous (the `ValueError` of
`get_df`). -/
theorem get_df_shorthand_example :
    get_df volumeStore "simulator_volume_fipnum" = .ok 42 ∧
    get_df volumeStore "simulator_volume_fipnum.csv" = .ok 42 ∧
    get_df volumeStore "share/results/volumes/simulator_volume_fipnum" = .ok 42 ∧
    get_df volumeStore "share/results/volumes/simulator_volume_fipnum.csv" = .ok 42 ∧
    get_df volumeStore2 "simulator_volume_fipnum" = .error "simulator_volume_fipnum" := by
  exact ⟨rfl, rfl, rfl, rfl, rfl⟩

/-! ## Claim C9: `__delitem__` removes only on an exact key -/

theorem find_filter_of_imp {β : Type} (l : List β) (p q : β → Bool)
    (h : ∀ x, p x = true → q x = true) : (l.filter q).find? p = l.find? p := by
  induction l with
  | nil => rfl
  | cons hd tl ih =>
    by_cases hq : q hd = true
    · rw [List.filter_cons_of_pos hq]
      by_cases hp : p hd = true
      · rw [List.find?_cons_of_pos _ hp, List.find?_cons_of_pos _ hp]
      · rw [List.find?_cons_of_neg _ hp, List.find?_cons_of_neg _ hp]
        exact ih
    · have hp : ¬ p hd = true := fun hph => hq (h hd hph)
      rw [List.filter_cons_of_neg hq, List.find?_cons_of_neg _ hp]
      exact ih

/-- C9: `__delitem__` removes a data-store entry only on an exact
cache-key match: afterwards the exact key is absent, every other key maps
to its previous value, and when the key is not present exactly — even
when it is a shorthand that `get_df` would resolve — the store is
returned unchanged (and no error is raised, the operation being a total
function). -/
theorem delitem_exact_match_only {α : Type} (data : List (String × α)) (lp k : String) :
    lookupKV (delitem data lp) lp = none ∧
    (k ≠ lp → lookupKV (delitem data lp) k = lookupKV data k) ∧
    ((data.map (·.1)).contains lp = false → delitem data lp = data) ∧
    (∀ v, get_df data lp = .ok v → (data.map (·.1)).contains lp = false →
      delitem data lp = data) := by
  refine ⟨?_, ?_, ?_, ?_⟩
  · unfold delitem
    by_cases hc : (data.map (·.1)).contains lp = true
    · rw [if_pos hc]
      have hf : (data.filter (fun kv => kv.1 ≠ lp)).find? (fun kv => kv.1 = lp) = none := by
        apply List.find?_eq_none.mpr
        intro x hx
        have hne := (List.mem_filter.mp hx).2
        simp only [ne_eq, decide_not, Bool.not_eq_eq_eq_not, Bool.not_true,
          decide_eq_false_iff_not] at hne
        simp [hne]
      simp [lookupKV, hf]
    · rw [if_neg hc]
      exact lookup_none_of_not_contains data lp (Bool.not_eq_true _ ▸ Bool.of_not_eq_true hc)
  · intro hk
    unfold delitem
    by_cases hc : (data.map (·.1)).contains lp = true
    · rw [if_pos hc]
      unfold lookupKV
      rw [find_filter_of_imp data (fun kv => kv.1 = k) (fun kv => kv.1 ≠ lp)]
      intro x hx
      simp only [decide_eq_true_eq] at hx
      simp [hx, hk]
    · rw [if_neg hc]
  · intro hc
    unfold delitem
    rw [hc]
    simp
  · intro v _ hc
    unfold delitem
    rw [hc]
    simp

/-- C9, witness: deleting `c.txt` leaves the other entry readable with
its old value, and deleting the shorthand `b.csv` — which `get_df`
resolves to `a/b.csv` — is a no-op. -/
theorem delitem_exact_match_only_witness :
    lookupKV (delitem [("a/b.csv", (1 : Nat)), ("c.txt", 2)] "c.txt") "a/b.csv" = some 1 ∧
    delitem [("a/b.csv", (1 : Nat)), ("c.txt", 2)] "b.csv" =
      [("a/b.csv", (1 : Nat)), ("c.txt", 2)] :=
  ⟨((delitem_exact_match_only [("a/b.csv", (1 : Nat)), ("c.txt", 2)] "c.txt"
      "a/b.csv").2.1 (by decide)).trans rfl,
   (delitem_exact_match_only [("a/b.csv", (1 : Nat)), ("c.txt", 2)] "b.csv"
      "b.csv").2.2.2 1 rfl (by decide)⟩

/-! ## Claims C4 and C7: concrete realization directories -/

/-- A realization directory `/r` containing only a `STATUS` file with one
header line and one finished job line. -/
def fsStatusOnly : FS :=
  ⟨"/c", ["/r/STATUS"], fun _ => [], fun _ => none,
   fun _ => [["Header"], ["COPY_FILE", ":", "10:00:00", "....", "10:00:05"]],
   fun _ => none, fun _ => []⟩

/-- A directory with no files at all. -/
def fsEmptyDir : FS :=
  ⟨"/c", [], fun _ => [], fun _ => none, fun _ => [], fun _ => none, fun _ => []⟩

/-- A realization directory `/r` with a `STATUS` file and an empty
`parameters.txt`, but no `jobs.json` and no `OK` marker. -/
def fsStatusParams : FS :=
  ⟨"/c", ["/r/STATUS", "/r/parameters.txt"], fun _ => [], fun _ => none,
   fun _ => [["Header"], ["COPY_FILE", ":", "10:00:00", "....", "10:00:05"]],
   fun _ => none, fun _ => []⟩

/-- The realization state constructed from `fsStatusParams`. -/
def realMinimal : Realization :=
  ⟨"/r", none,
   [⟨"STATUS", "STATUS", "/r/STATUS", "STATUS", []⟩,
    ⟨"parameters.txt", "txt", "/r/parameters.txt", "parameters.txt", []⟩],
   [("parameters.txt", .dict []),
    ("STATUS", .statusFrame
      [⟨0, .s "COPY_FILE", .s "10:00:00", .s "10:00:05", .secs 5, []⟩])]⟩

/-- C7: construction fails when the mandatory `STATUS` file is absent —
that part of the claim holds — but it also fails when only the optional
`parameters.txt` is absent, because `__init__` unconditionally calls
`from_txt('parameters.txt')`, whose first statement raises `IOError` for
a missing file.  With `STATUS` and `parameters.txt` both present (and
`jobs.json` and `OK` still missing) construction succeeds. -/
theorem init_requires_parameters_file :
    initRealization fsStatusOnly "/r" =
      .error "IOError: File not found: /r/parameters.txt" ∧
    initRealization fsEmptyDir "/r" = .error "IOError: STATUS file missing" ∧
    initRealization fsStatusParams "/r" = .ok realMinimal := by
  exact ⟨rfl, rfl, rfl⟩

/-- A realization directory `/r` whose `STATUS` file has one finished job
and one unfinished job (no end-time field on the last line). -/
def fsUnfinished : FS :=
  ⟨"/c", ["/r/STATUS"], fun _ => [], fun _ => none,
   fun _ => [["Header"], ["COPY_FILE", ":", "18:51:47", "....", "18:51:52"],
             ["SIM", ":", "18:52:00", "...."]],
   fun _ => none, fun _ => []⟩

/-- C4: a completed row does get a numeric DURATION, but a row whose
end-time field is empty crashes `from_status` instead of getting NaN: the
missing field arrives as the pandas float `NaN`, which is truthy, so the
`not jobrow['ENDTIME']` guard (whose comment says `A job that is not
finished.`) does not fire and the code calls `.split(':')` on a float,
raising `AttributeError`. -/
theorem from_status_unfinished_job_crashes :
    pyTruthy PCell.nan = true ∧
    rowDuration (.s "18:52:00") PCell.nan =
      .error "AttributeError: float object has no attribute split" ∧
    rowDuration (.s "18:51:47") (.s "18:51:52") = .ok (.secs 5) ∧
    from_status fsUnfinished ⟨"/r", none, [], []⟩ =
      .error "AttributeError: float object has no attribute split" := by
  exact ⟨rfl, rfl, rfl, rfl⟩

/-! ## Claim C10: the cache test of `from_txt` consults `files`, not `data` -/

/-- C10: when the joined full path is already registered in the file
index but the localpath was never parsed into the data store, `from_txt`
without `force_reread` takes the cached branch and fails with the
`KeyError` of `self.data[localpath]` instead of parsing the existing
file. -/
theorem from_txt_cache_test_on_files (fs : FS) (real : Realization)
    (lp : String) (cn : Bool)
    (h1 : fsExists fs (pyJoin real.origpath lp) = true)
    (h2 : (real.files.map (·.fullpath)).contains (pyJoin real.origpath lp) = true)
    (h3 : lookupKV real.data lp = none) :
    from_txt fs real lp cn false = .error ("KeyError: " ++ lp) := by
  have h2' : ∃ x ∈ real.files, x.fullpath = pyJoin real.origpath lp := by
    obtain ⟨a, ha, hfa⟩ := List.mem_map.mp (List.elem_iff.mp h2)
    exact ⟨a, ha, hfa⟩
  simp [from_txt, h1, h2, h3]
  exact h2'

/-- A file system whose realization directory `/r` holds a key-value file
`a.txt`. -/
def fsKV : FS :=
  ⟨"/c", ["/r/a.txt"], fun _ => [("K", "2")], fun _ => none, fun _ => [],
   fun _ => none, fun _ => []⟩

/-- A realization whose file index already lists `/r/a.txt` (as a prior
`find_files` discovery would) while the data store is empty. -/
def realIndexed : Realization :=
  ⟨"/r", none, [⟨"a.txt", "txt", "/r/a.txt", "a.txt", []⟩], []⟩

/-- C10, witness: the discovered-but-never-parsed file raises `KeyError`
on `from_txt`. -/
theorem from_txt_cache_test_on_files_witness :
    from_txt fsKV realIndexed "a.txt" true false = .error ("KeyError: " ++ "a.txt") :=
  from_txt_cache_test_on_files fsKV realIndexed "a.txt" true rfl rfl rfl

/-! ## Claim C6: cache idempotence of `from_txt` -/

theorem from_txt_eval_cached (fs : FS) (real : Realization) (lp : String) (cn : Bool)
    (w : DataVal) (hex : fsExists fs (pyJoin real.origpath lp) = true)
    (hco : (real.files.map (·.fullpath)).contains (pyJoin real.origpath lp) = true)
    (hlk : lookupKV real.data lp = some w) :
    from_txt fs real lp cn false = .ok (w, real, false) := by
  unfold from_txt
  rw [if_neg (by simp [hex]), if_pos ⟨hco, by simp⟩, hlk]

/-- C6: when a `from_txt` call without `force_reread` succeeds, an
immediately repeated call on the same localpath returns the identical
mapping, leaves the realization state unchanged, and reports that the
file content was not read again (the instrumentation flag of the cached
branch is `false`). -/
theorem from_txt_cache_idempotent (fs : FS) (real : Realization) (lp : String)
    (cn : Bool) (v : DataVal) (r1 : Realization) (b : Bool)
    (h : from_txt fs real lp cn false = .ok (v, r1, b)) :
    from_txt fs r1 lp cn false = .ok (v, r1, false) := by
  unfold from_txt at h
  by_cases hex : fsExists fs (pyJoin real.origpath lp) = true
  · rw [if_neg (by simp [hex])] at h
    by_cases hco : (real.files.map (·.fullpath)).contains (pyJoin real.origpath lp) = true
    · rw [if_pos ⟨hco, by simp⟩] at h
      cases hlk : lookupKV real.data lp with
      | none => rw [hlk] at h; exact absurd h (by simp)
      | some w =>
        rw [hlk] at h
        simp only [Except.ok.injEq, Prod.mk.injEq] at h
        obtain ⟨hv, hr, hb⟩ := h
        subst hv
        subst hr
        exact from_txt_eval_cached fs real lp cn w hex hco hlk
    · simp only [hco, Bool.false_eq_true, false_and, if_false, not_false_iff,
        not_false_eq_true, if_true, Except.ok.injEq, Prod.mk.injEq] at h
      obtain ⟨hv, hr, hb⟩ := h
      subst hv
      subst hr
      refine from_txt_eval_cached fs _ lp cn _ ?_ ?_ ?_
      · exact hex
      · apply List.elem_iff.mpr
        show pyJoin real.origpath lp ∈
          (real.files ++ [txtFileRow lp (pyJoin real.origpath lp)]).map (·.fullpath)
        rw [List.map_append]
        exact List.mem_append.mpr (Or.inr (by simp [txtFileRow]))
      · exact lookup_dictInsert_self real.data lp _
  · rw [if_pos (by simp [hex])] at h
    exact absurd h (by simp)

/-- A freshly constructed-looking realization with no registered files
and an empty data store. -/
def realFresh : Realization := ⟨"/r", none, [], []⟩

/-- The value `from_txt` parses out of `a.txt` in `fsKV`. -/
def vKV : DataVal := .dict [("K", .vInt 2)]

/-- The realization state after `from_txt` has parsed `a.txt` of
`fsKV`. -/
def r1KV : Realization :=
  ⟨"/r", none, [⟨"a.txt", "txt", "/r/a.txt", "a.txt", []⟩],
   [("a.txt", .dict [("K", .vInt 2)])]⟩

/-- C6, witness: a first `from_txt` call on `a.txt` reads the file, and
the repeated call returns the identical mapping, unchanged state, and no
re-read. -/
theorem from_txt_cache_idempotent_witness :
    from_txt fsKV realFresh "a.txt" true false = .ok (vKV, r1KV, true) ∧
    from_txt fsKV r1KV "a.txt" true false = .ok (vKV, r1KV, false) :=
  ⟨rfl, from_txt_cache_idempotent fsKV realFresh "a.txt" true vKV r1KV true rfl⟩

/-! ## Claim C8: FULLPATH uniqueness in the file index -/

/-- A realization directory `/r` with `STATUS`, an empty
`parameters.txt`, and a discoverable CSV result file `a.csv`. -/
def fsDup : FS :=
  ⟨"/c", ["/r/STATUS", "/r/parameters.txt", "/r/a.csv"], fun _ => [],
   fun _ => some [],
   fun _ => [["Header"], ["COPY_FILE", ":", "10:00:00", "....", "10:00:05"]],
   fun _ => none, fun _ => []⟩

/-- The state of the `fsDup` realization after discovering the pattern
`./a.csv`: `glob` returns the unnormalized match `/r/./a.csv` while the
registered LOCALPATH is the relpath-normalized `a.csv`. -/
def realDup1 : Realization := find_files fsDup realMinimal ["./a.csv"] []

/-- The state after additionally loading the CSV under the spelling
`./a.csv`. -/
def realDup2 : Realization :=
  match from_csv fsDup realDup1 "./a.csv" false with
  | .ok r => r.2
  | .error _ => realDup1

/-- C8, counterexample: construction, then `find_files(["./a.csv"])`,
then `from_csv("./a.csv")` leaves two rows with the FULLPATH
`/r/./a.csv` in the file index, because `from_csv` guards its
registration by LOCALPATH (`./a.csv` versus the discovered `a.csv`)
rather than by FULLPATH — so FULLPATH values are not unique after this
sequence. -/
theorem find_files_from_csv_duplicate_fullpath :
    initRealization fsDup "/r" = .ok realMinimal ∧
    (realDup2.files.map (·.fullpath)).count "/r/./a.csv" = 2 ∧
    ¬ (realDup2.files.map (·.fullpath)).Nodup := by
  refine ⟨rfl, rfl, ?_⟩
  decide

theorem foldl_preserve {α β : Type} (P : β → Prop) (f : β → α → β)
    (hf : ∀ b a, P b → P (f b a)) : ∀ (l : List α) (b : β), P b → P (l.foldl f b) := by
  intro l
  induction l with
  | nil => intro b hb; exact hb
  | cons hd tl ih => intro b hb; exact ih (f b hd) (hf b hd hb)

/-- One `find_files` registration keeps the FULLPATH column duplicate
free: any row with the discovered FULLPATH is deleted before the new row
is appended. -/
theorem nodup_findFilesStep (cwd op : String) (md : List (String × String))
    (files : List FileRow) (m : String)
    (h : (files.map (·.fullpath)).Nodup) :
    ((findFilesStep cwd op md files m).map (·.fullpath)).Nodup := by
  unfold findFilesStep
  by_cases hc : (files.map (·.fullpath)).contains m = true
  · rw [if_pos hc, List.map_append]
    have hsub : List.Sublist (files.filter (fun fr => fr.fullpath ≠ m)) files :=
      List.filter_sublist files
    have hnd : ((files.filter (fun fr => fr.fullpath ≠ m)).map (·.fullpath)).Nodup :=
      h.sublist (hsub.map (·.fullpath))
    have hnm : m ∉ (files.filter (fun fr => fr.fullpath ≠ m)).map (·.fullpath) := by
      intro hm
      obtain ⟨fr, hfr, hfp⟩ := List.mem_map.mp hm
      have h2 := (List.mem_filter.mp hfr).2
      simp only [ne_eq, decide_not, Bool.not_eq_eq_eq_not, Bool.not_true,
        decide_eq_false_iff_not] at h2
      exact h2 hfp
    exact nodupConcat _ m hnd hnm
  · rw [if_neg hc, List.map_append]
    have hnm : m ∉ files.map (·.fullpath) := contains_false_not_mem _ m (by
      cases hcv : (files.map (·.fullpath)).contains m
      · rfl
      · exact absurd hcv hc)
    exact nodupConcat _ m h hnm

theorem nodup_find_files (fs : FS) (real : Realization) (paths : List String)
    (md : List (String × String)) (h : (real.files.map (·.fullpath)).Nodup) :
    ((find_files fs real paths md).files.map (·.fullpath)).Nodup := by
  unfold find_files
  refine foldl_preserve (fun fl => (fl.map (·.fullpath)).Nodup) _ ?_ paths real.files h
  intro b a hb
  refine foldl_preserve (fun fl => (fl.map (·.fullpath)).Nodup) _ ?_ _ b hb
  intro b2 a2 hb2
  exact nodup_findFilesStep fs.cwd real.origpath md b2 a2 hb2

/-- A successful `from_txt` call keeps the FULLPATH column duplicate
free: the registration is guarded by FULLPATH membership. -/
theorem nodup_from_txt (fs : FS) (real : Realization) (lp : String) (cn fr : Bool)
    (v : DataVal) (r1 : Realization) (b : Bool)
    (h : from_txt fs real lp cn fr = .ok (v, r1, b))
    (hn : (real.files.map (·.fullpath)).Nodup) :
    (r1.files.map (·.fullpath)).Nodup := by
  unfold from_txt at h
  by_cases hex : fsExists fs (pyJoin real.origpath lp) = true
  · rw [if_neg (by simp [hex])] at h
    by_cases hcf : ((real.files.map (·.fullpath)).contains (pyJoin real.origpath lp) = true)
        ∧ ¬ (fr = true)
    · rw [if_pos hcf] at h
      cases hlk : lookupKV real.data lp with
      | none => rw [hlk] at h; exact absurd h (by simp)
      | some w =>
        rw [hlk] at h
        simp only [Except.ok.injEq, Prod.mk.injEq] at h
        obtain ⟨_, hr, _⟩ := h
        rw [← hr]
        exact hn
    · rw [if_neg hcf] at h
      simp only [Except.ok.injEq, Prod.mk.injEq] at h
      obtain ⟨hv, hr, hb⟩ := h
      subst hr
      show ((if ¬ (real.files.map (·.fullpath)).contains (pyJoin real.origpath lp) = true
          then real.files ++ [txtFileRow lp (pyJoin real.origpath lp)]
          else real.files).map (·.fullpath)).Nodup
      by_cases hco : (real.files.map (·.fullpath)).contains (pyJoin real.origpath lp) = true
      · have hmem : ∃ x ∈ real.files, x.fullpath = pyJoin real.origpath lp := by
          obtain ⟨a, ha, hfa⟩ := List.mem_map.mp (List.elem_iff.mp hco)
          exact ⟨a, ha, hfa⟩
        rw [if_neg (by simp only [not_not]; simp; exact hmem)]
        exact hn
      · have hall : ∀ x ∈ real.files, ¬ x.fullpath = pyJoin real.origpath lp := by
          intro x hx he
          exact hco (List.elem_iff.mpr (he ▸ List.mem_map_of_mem (·.fullpath) hx))
        rw [if_pos (by simp; exact hall), List.map_append]
        have hnm : pyJoin real.origpath lp ∉ real.files.map (·.fullpath) :=
          contains_false_not_mem _ _ (by
            cases hcv : (real.files.map (·.fullpath)).contains (pyJoin real.origpath lp)
            · rfl
            · exact absurd hcv hco)
        exact nodupConcat _ _ hn hnm
  · rw [if_pos (by simp [hex])] at h
    exact absurd h (by simp)

/-- A successful `from_status` call never touches the file index. -/
theorem from_status_files (fs : FS) (real r1 : Realization)
    (h : from_status fs real = .ok r1) : r1.files = real.files := by
  unfold from_status at h
  by_cases hx : fsExists fs (pyJoin real.origpath "STATUS") = true
  · rw [if_neg (by simp [hx])] at h
    cases hso : statusOutRowsOf fs real.origpath with
    | error e => rw [hso] at h; exact absurd h (by simp)
    | ok merged =>
      rw [hso] at h
      simp only [Except.ok.injEq] at h
      rw [← h]
  · rw [if_pos (by simp [hx])] at h
    simp only [Except.ok.injEq] at h
    rw [← h]

/-- The rows registered by `__init__` before any parse have pairwise
distinct FULLPATHs. -/
theorem nodup_initFiles (fs : FS) (abspath : String) :
    ((initFiles fs abspath).map (·.fullpath)).Nodup := by
  unfold initFiles
  have h1 : pyJoin abspath "STATUS" ≠ pyJoin abspath "jobs.json" :=
    pyJoin_ne abspath "STATUS" "jobs.json" rfl rfl (by decide)
  have h2 : pyJoin abspath "STATUS" ≠ pyJoin abspath "OK" :=
    pyJoin_ne abspath "STATUS" "OK" rfl rfl (by decide)
  have h3 : pyJoin abspath "jobs.json" ≠ pyJoin abspath "OK" :=
    pyJoin_ne abspath "jobs.json" "OK" rfl rfl (by decide)
  by_cases hj : fsExists fs (pyJoin abspath "jobs.json") = true <;>
    by_cases hk : fsExists fs (pyJoin abspath "OK") = true <;>
    simp [hj, hk, List.map_append, h1, h2, h3]

/-- A successfully constructed realization has a duplicate-free FULLPATH
column. -/
theorem nodup_init (fs : FS) (path : String) (r0 : Realization)
    (h : initRealization fs path = .ok r0) :
    (r0.files.map (·.fullpath)).Nodup := by
  unfold initRealization at h
  by_cases hst : fsExists fs (pyJoin (pyAbspath fs.cwd path) "STATUS") = true
  · rw [if_pos hst] at h
    cases ht : from_txt fs
        ⟨path, realIdx (pyAbspath fs.cwd path), initFiles fs (pyAbspath fs.cwd path), []⟩
        "parameters.txt" true false with
    | error e => rw [ht] at h; exact absurd h (by simp)
    | ok r =>
      rw [ht] at h
      have hfiles := from_status_files fs r.2.1 r0 h
      have hinit : ((initFiles fs (pyAbspath fs.cwd path)).map (·.fullpath)).Nodup :=
        nodup_initFiles fs _
      have h2 := nodup_from_txt fs
        ⟨path, realIdx (pyAbspath fs.cwd path), initFiles fs (pyAbspath fs.cwd path), []⟩
        "parameters.txt" true false r.1 r.2.1 r.2.2 ht hinit
      rw [hfiles]
      exact h2
  · rw [if_neg hst] at h
    exact absurd h (by simp)

/-- C8 (amended): after construction and any sequence of `find_files`
and `from_txt` calls, the FULLPATH values in the file index are unique —
`find_files` deletes any row carrying the re-discovered FULLPATH before
appending, and `from_txt` registers only when the FULLPATH is absent.
(`from_csv` is excluded: it guards registration by LOCALPATH only, and
the counterexample shows it can duplicate a FULLPATH when called with a
differently spelled localpath for an already discovered file.) -/
theorem files_fullpath_unique (fs : FS) (path : String) (r0 : Realization)
    (ops : List Op) (h : initRealization fs path = .ok r0) :
    ((applyOps fs ops r0).files.map (·.fullpath)).Nodup := by
  have h0 : (r0.files.map (·.fullpath)).Nodup := nodup_init fs path r0 h
  unfold applyOps
  refine foldl_preserve (fun r => (r.files.map (·.fullpath)).Nodup) (applyOp fs) ?_ ops r0 h0
  intro r op hr
  cases op with
  | opFindFiles paths md => exact nodup_find_files fs r paths md hr
  | opFromTxt lp cn frr =>
    simp only [applyOp]
    cases hft : from_txt fs r lp cn frr with
    | error e => exact hr
    | ok res => exact nodup_from_txt fs r lp cn frr res.1 res.2.1 res.2.2 hft hr

/-- C8, witness: a constructed realization subjected to a concrete
re-discovery and re-read sequence keeps its FULLPATH column duplicate
free. -/
theorem files_fullpath_unique_witness :
    ((applyOps fsStatusParams
        [.opFindFiles ["STATUS"] [], .opFromTxt "parameters.txt" true false]
        realMinimal).files.map (·.fullpath)).Nodup :=
  files_fullpath_unique fsStatusParams "/r" realMinimal
    [.opFindFiles ["STATUS"] [], .opFromTxt "parameters.txt" true false] rfl

end FmuEnsemble
